import Mathlib

/-!
Verification of the CloudSecAIBot command-safety gate and bounded executor.

The definitions below are a shallow embedding of the Python sources:
  awscli_claude.py  (class AWSMCPServer)
  azurecli_claude.py (class AzureMCPServer)
  gcpcli_claude.py  (class GCPMCPServer)
  awscli_mcp.py     (Flask HTTP variant)
Commands are modelled as `List Char` (Python `str`), captured process output
as `List Nat` (Python `bytes`).
-/

namespace CloudSecBot

/-- Python's `str.lower()` restricted to the basic-latin range, as applied to
the command string before the denylist scan (`command.lower()`). -/
def pyLower (l : List Char) : List Char := l.map Char.toLower

/-- Python's `str.strip()`: remove leading and trailing whitespace.  Applied to
the raw command on entry (`arguments.get("command", "").strip()`). -/
def pyStrip (l : List Char) : List Char :=
  ((l.dropWhile Char.isWhitespace).reverse.dropWhile Char.isWhitespace).reverse

/-- Python's substring operator `pat in hay` on strings. -/
def containsSub (hay pat : List Char) : Bool := decide (pat <:+: hay)

/-- Python's `hay.endswith(pat)`. -/
def endsWith (hay pat : List Char) : Bool := decide (pat <:+ hay)

/-- `dangerous_patterns` of `AWSMCPServer._is_safe_command`
(awscli_claude.py lines 290-295). -/
def awsDangerousPatterns : List (List Char) :=
  ["rm", "delete", "destroy", "terminate",
   "&&", "||", ";", "|", ">", "<",
   "sudo", "su", "chmod", "chown",
   "eval", "exec", "system"].map String.data

/-- `dangerous_patterns` of `AzureMCPServer._is_safe_command`
(azurecli_claude.py lines 356-365). -/
def azureDangerousPatterns : List (List Char) :=
  ["delete", "remove", "destroy", "purge",
   "&&", "||", ";", "|", ">", "<",
   "sudo", "su", "chmod", "chown",
   "eval", "exec", "system", "rm ",
   "deployment delete", "group delete",
   "vm delete", "disk delete",
   "keyvault delete", "storage delete"].map String.data

/-- `dangerous_patterns` of `GCPMCPServer._is_safe_command`
(gcpcli_claude.py lines 477-489).  Note `"del"` precedes `"delete"`. -/
def gcpDangerousPatterns : List (List Char) :=
  ["&&", "||", ";", "|", ">", "<", ">>", "<<",
   "sudo", "su", "chmod", "chown", "rm", "del",
   "eval", "exec", "system", "sh", "bash",
   "delete", "destroy", "remove", "terminate",
   "mv", "cp", "move", "copy",
   "curl", "wget", "ssh", "scp", "rsync"].map String.data

/-- The `safe_delete` markers of the GCP delete carve-out
(gcpcli_claude.py lines 497-500). -/
def gcpSafeDeleteMarkers : List (List Char) :=
  ["instances list", "projects list", "images list",
   "disks list", "snapshots list", "--dry-run", "--help"].map String.data

/-- `suspicious_chars` of `GCPMCPServer._is_safe_command`
(gcpcli_claude.py line 511): `$(`, backtick, `$` + brace, backslash, `&&`, `||`. -/
def gcpSuspiciousSeqs : List (List Char) :=
  ["$(", "\x60", "$\x7b", "\\", "&&", "||"].map String.data

/-- `command.startswith("-") or command.startswith("--")`, the shared
dash-prefix structural check of all three gates. -/
def startsWithDash (command : List Char) : Bool :=
  (['-'] : List Char).isPrefixOf command || (['-', '-'] : List Char).isPrefixOf command

/-- `AWSMCPServer._is_safe_command` (awscli_claude.py lines 287-310): reject if
any denylist pattern occurs as a substring of the lowercased command, then
reject a leading dash, otherwise accept. -/
def aws_is_safe_command (command : List Char) : Bool :=
  if awsDangerousPatterns.any (fun pattern => containsSub (pyLower command) pattern) then false
  else if startsWithDash command then false
  else true

/-- `AzureMCPServer._is_safe_command` (azurecli_claude.py lines 353-385):
denylist scan, dash check, then the extra whole-word / trailing `delete`
check (`" delete " in command_lower or command_lower.endswith(" delete")`). -/
def azure_is_safe_command (command : List Char) : Bool :=
  if azureDangerousPatterns.any (fun pattern => containsSub (pyLower command) pattern) then false
  else if startsWithDash command then false
  else if containsSub (pyLower command) (" delete ".data)
          || endsWith (pyLower command) (" delete".data) then false
  else true

/-- The GCP delete exception (gcpcli_claude.py lines 497-500): the command also
contains one of the read-only markers. -/
def gcpDeleteException (commandLower : List Char) : Bool :=
  gcpSafeDeleteMarkers.any (fun marker => containsSub commandLower marker)

/-- `GCPMCPServer._is_safe_command` (gcpcli_claude.py lines 474-517): a pattern
match rejects unless the pattern is exactly `"delete"` and a read-only marker
is present (`continue`); then the dash check; then the suspicious-sequence
scan over the original (non-lowercased) command. -/
def gcp_is_safe_command (command : List Char) : Bool :=
  if gcpDangerousPatterns.any (fun pattern =>
      containsSub (pyLower command) pattern
      && !(pattern == ("delete".data) && gcpDeleteException (pyLower command))) then false
  else if startsWithDash command then false
  else if gcpSuspiciousSeqs.any (fun s => containsSub command s) then false
  else true

/-- The provider variants of the gate.  The gsutil and bq tools share
`GCPMCPServer._is_safe_command` with gcloud. -/
inductive ProviderKind where
  | AWS : ProviderKind
  | Azure : ProviderKind
  | GCP : ProviderKind
  | GSUtil : ProviderKind
  | BigQuery : ProviderKind
deriving DecidableEq

def is_safe_command : ProviderKind → List Char → Bool
  | .AWS => aws_is_safe_command
  | .Azure => azure_is_safe_command
  | .GCP => gcp_is_safe_command
  | .GSUtil => gcp_is_safe_command
  | .BigQuery => gcp_is_safe_command

/-- The verdict of the policy gate. -/
inductive PolicyVerdict where
  | Allowed : PolicyVerdict
  | Rejected : String → PolicyVerdict
deriving DecidableEq

/-- Rejection text for an empty command ("Error: No command provided"). -/
def noCommandMsg : String := "Error: No command provided"

/-- Rejection text produced when `_is_safe_command` returns false. -/
def dangerousMsg : String := "Error: Command contains potentially dangerous operations"

/-- The gate as invoked by each `_execute_*_command` dispatcher: strip the raw
command, reject when empty, then consult `_is_safe_command`. -/
def evaluate (provider : ProviderKind) (raw : List Char) : PolicyVerdict :=
  if (pyStrip raw).isEmpty then .Rejected noCommandMsg
  else if is_safe_command provider (pyStrip raw) then .Allowed
  else .Rejected dangerousMsg

/-- The binary each provider's executor prepends to the raw command. -/
def providerBinary : ProviderKind → List Char
  | .AWS => "aws".data
  | .Azure => "az".data
  | .GCP => "gcloud".data
  | .GSUtil => "gsutil".data
  | .BigQuery => "bq".data

/-- `full_command = f"aws {command}"` and its analogues. -/
def fullCommand (provider : ProviderKind) (command : List Char) : List Char :=
  providerBinary provider ++ ' ' :: command

example : evaluate .GCP ("compute instances list --dry-run".data) = .Allowed := by decide

example : evaluate .GCP ("compute instances delete foo".data) = .Rejected dangerousMsg := by decide

example : evaluate .Azure ("group delete --name foo".data) = .Rejected dangerousMsg := by decide

example : evaluate .AWS ("s3 ls".data) = .Allowed := by decide

/-! ### Helper lemmas about substring containment, stripping and lowering -/

lemma infix_dropWhile_of_none {α : Type} [DecidableEq α] (f : α → Bool) (p : List α)
    (hne : p ≠ []) (hnf : ∀ c ∈ p, f c = false) :
    ∀ l : List α, p <:+: l → p <:+: l.dropWhile f := by
  intro l
  induction l with
  | nil =>
    intro h
    exact absurd (List.eq_nil_of_infix_nil h) hne
  | cons c t ih =>
    intro h
    rw [List.dropWhile_cons]
    by_cases hfc : f c = true
    · simp only [hfc, if_true]
      rcases List.infix_cons_iff.mp h with hp | hinf
      · cases p with
        | nil => exact absurd rfl hne
        | cons a q =>
          have hac : a = c := (List.cons_prefix_cons.mp hp).1
          have := hnf a (List.mem_cons_self a q)
          rw [hac, hfc] at this
          exact absurd this (by simp)
      · exact ih hinf
    · simp only [Bool.not_eq_true] at hfc
      simp only [hfc, if_false]
      exact h

lemma infix_pyStrip {p l : List Char} (hne : p ≠ [])
    (hnws : ∀ c ∈ p, c.isWhitespace = false) (h : p <:+: l) : p <:+: pyStrip l := by
  unfold pyStrip
  have h1 : p <:+: l.dropWhile Char.isWhitespace :=
    infix_dropWhile_of_none Char.isWhitespace p hne hnws l h
  have h2 : p.reverse <:+: (l.dropWhile Char.isWhitespace).reverse := h1.reverse
  have hne2 : p.reverse ≠ [] := by simpa using hne
  have hnws2 : ∀ c ∈ p.reverse, c.isWhitespace = false := by
    intro c hc
    exact hnws c (List.mem_reverse.mp hc)
  have h3 := infix_dropWhile_of_none Char.isWhitespace p.reverse hne2 hnws2 _ h2
  have h4 := h3.reverse
  rwa [List.reverse_reverse] at h4

lemma containsSub_intro {hay pat : List Char} (h : pat <:+: hay) :
    containsSub hay pat = true := by
  simpa [containsSub] using h

/-! ### Gate rejection lemmas -/

lemma aws_gate_pattern_reject (cmd pat : List Char)
    (hmem : pat ∈ awsDangerousPatterns) (h : pat <:+: pyLower cmd) :
    aws_is_safe_command cmd = false := by
  have hany : awsDangerousPatterns.any
      (fun pattern => containsSub (pyLower cmd) pattern) = true := by
    rw [List.any_eq_true]
    exact ⟨pat, hmem, containsSub_intro h⟩
  simp [aws_is_safe_command, hany]

lemma azure_gate_pattern_reject (cmd pat : List Char)
    (hmem : pat ∈ azureDangerousPatterns) (h : pat <:+: pyLower cmd) :
    azure_is_safe_command cmd = false := by
  have hany : azureDangerousPatterns.any
      (fun pattern => containsSub (pyLower cmd) pattern) = true := by
    rw [List.any_eq_true]
    exact ⟨pat, hmem, containsSub_intro h⟩
  simp [azure_is_safe_command, hany]

lemma gcp_gate_pattern_reject (cmd pat : List Char)
    (hmem : pat ∈ gcpDangerousPatterns) (hnd : pat ≠ "delete".data)
    (h : pat <:+: pyLower cmd) :
    gcp_is_safe_command cmd = false := by
  have hbeq : (pat == ("delete".data)) = false := by
    exact beq_eq_false_iff_ne.mpr hnd
  have hany : gcpDangerousPatterns.any (fun pattern =>
      containsSub (pyLower cmd) pattern
      && !(pattern == ("delete".data) && gcpDeleteException (pyLower cmd))) = true := by
    rw [List.any_eq_true]
    refine ⟨pat, hmem, ?_⟩
    rw [containsSub_intro h, hbeq]
    rfl
  unfold gcp_is_safe_command
  rw [hany]
  simp

lemma evaluate_rejected_of_gate (p : ProviderKind) (raw : List Char)
    (hne : (pyStrip raw).isEmpty = false)
    (hgate : is_safe_command p (pyStrip raw) = false) :
    evaluate p raw = .Rejected dangerousMsg := by
  simp [evaluate, hne, hgate]

lemma rejected_of_common_pattern (pat : List Char)
    (ha : pat ∈ awsDangerousPatterns) (hz : pat ∈ azureDangerousPatterns)
    (hg : pat ∈ gcpDangerousPatterns) (hnd : pat ≠ "delete".data)
    (hlow : List.map Char.toLower pat = pat)
    (hnws : ∀ c ∈ pat, c.isWhitespace = false) (hne : pat ≠ []) :
    ∀ (p : ProviderKind) (cmd : List Char), pat <:+: cmd →
      evaluate p cmd = .Rejected dangerousMsg := by
  intro p cmd h
  have hstrip : pat <:+: pyStrip cmd := infix_pyStrip hne hnws h
  have hlower : pat <:+: pyLower (pyStrip cmd) := by
    have hmap := hstrip.map Char.toLower
    rw [hlow] at hmap
    exact hmap
  have hempty : (pyStrip cmd).isEmpty = false := by
    cases hps : pyStrip cmd with
    | nil =>
      rw [hps] at hstrip
      exact absurd (List.eq_nil_of_infix_nil hstrip) hne
    | cons a t => rfl
  refine evaluate_rejected_of_gate p cmd hempty ?_
  cases p with
  | AWS => exact aws_gate_pattern_reject _ pat ha hlower
  | Azure => exact azure_gate_pattern_reject _ pat hz hlower
  | GCP => exact gcp_gate_pattern_reject _ pat hg hnd hlower
  | GSUtil => exact gcp_gate_pattern_reject _ pat hg hnd hlower
  | BigQuery => exact gcp_gate_pattern_reject _ pat hg hnd hlower

/-! ### Claim theorems for the policy gate -/

/-- C2: for every provider, every non-empty raw command containing one of the
shell metacharacters `;`, `|`, `&&`, `>` is rejected by `evaluate`, including
when the command would also match a provider exception such as the GCP delete
carve-out (the quantification over all commands covers those as well). -/
theorem c2_metachar_rejected_all_providers
    (p : ProviderKind) (cmd : List Char) (hne : cmd ≠ [])
    (h : (";".data <:+: cmd) ∨ ("|".data <:+: cmd)
        ∨ ("&&".data <:+: cmd) ∨ (">".data <:+: cmd)) :
    evaluate p cmd = .Rejected dangerousMsg := by
  rcases h with h | h | h | h
  · exact rejected_of_common_pattern (";".data) (by decide) (by decide) (by decide)
      (by decide) (by decide) (by decide) (by decide) p cmd h
  · exact rejected_of_common_pattern ("|".data) (by decide) (by decide) (by decide)
      (by decide) (by decide) (by decide) (by decide) p cmd h
  · exact rejected_of_common_pattern ("&&".data) (by decide) (by decide) (by decide)
      (by decide) (by decide) (by decide) (by decide) p cmd h
  · exact rejected_of_common_pattern (">".data) (by decide) (by decide) (by decide)
      (by decide) (by decide) (by decide) (by decide) p cmd h

/-- Witness for C2: a GCP command that even contains the delete carve-out
marker `--dry-run` is still rejected once it contains `;`. -/
theorem c2_witness :
    evaluate .GCP ("compute instances list --dry-run ; rm -rf /".data)
      = .Rejected dangerousMsg :=
  c2_metachar_rejected_all_providers .GCP
    ("compute instances list --dry-run ; rm -rf /".data) (by decide) (Or.inl (by decide))

/-- C5: the two GCP examples of the spec: `compute instances list --dry-run`
is allowed, `compute instances delete foo` is rejected. -/
theorem c5_gcp_examples :
    evaluate .GCP ("compute instances list --dry-run".data) = .Allowed
    ∧ evaluate .GCP ("compute instances delete foo".data) = .Rejected dangerousMsg :=
  ⟨by decide, by decide⟩

/-- C6: the Azure gate rejects every command containing `delete` (in any form:
whole word, trailing word, or arbitrary substring — all are substrings), and
in particular `group delete --name foo`; there is no allow-exception branch in
`AzureMCPServer._is_safe_command`, which the universally quantified first
conjunct certifies. -/
theorem c6_azure_delete_always_rejected :
    (∀ cmd : List Char, ("delete".data <:+: pyLower cmd) →
      azure_is_safe_command cmd = false)
    ∧ evaluate .Azure ("group delete --name foo".data) = .Rejected dangerousMsg :=
  ⟨fun cmd h => azure_gate_pattern_reject cmd ("delete".data) (by decide) h, by decide⟩

/-- Witness for C6 at a concrete command. -/
theorem c6_witness : azure_is_safe_command ("vm delete myvm".data) = false :=
  c6_azure_delete_always_rejected.1 ("vm delete myvm".data) (by decide)

/-- C8: the GCP gate matches the denylist entry `"sh"` as a raw substring, so
every command whose lowercased text contains `sh` is rejected — in particular
`compute snapshots list`, even though `"snapshots list"` appears in the gate's
own delete-exception marker table. -/
theorem c8_gcp_sh_substring_rejected :
    (∀ cmd : List Char, ("sh".data <:+: pyLower cmd) →
      gcp_is_safe_command cmd = false)
    ∧ evaluate .GCP ("compute snapshots list".data) = .Rejected dangerousMsg
    ∧ ("snapshots list".data) ∈ gcpSafeDeleteMarkers :=
  ⟨fun cmd h => gcp_gate_pattern_reject cmd ("sh".data) (by decide) (by decide) h,
   by decide, by decide⟩

/-- Witness for C8 at the concrete command named by the claim. -/
theorem c8_witness : gcp_is_safe_command ("compute snapshots list".data) = false :=
  c8_gcp_sh_substring_rejected.1 ("compute snapshots list".data) (by decide)

/-- C9: the AWS gate matches the denylist entry `"rm"` as a raw substring of
the whole lowercased command, so every command containing `rm` is rejected;
in particular every `cloudformation ...` command (whatever follows) is
rejected, because `cloudformation` itself contains `rm`. -/
theorem c9_aws_rm_substring_rejected :
    (∀ cmd : List Char, ("rm".data <:+: pyLower cmd) →
      aws_is_safe_command cmd = false)
    ∧ (∀ rest : List Char, aws_is_safe_command ("cloudformation".data ++ rest) = false) := by
  have h1 : ∀ cmd : List Char, ("rm".data <:+: pyLower cmd) →
      aws_is_safe_command cmd = false :=
    fun cmd h => aws_gate_pattern_reject cmd ("rm".data) (by decide) h
  refine ⟨h1, fun rest => h1 _ ?_⟩
  have hinf : ("rm".data) <:+: ("cloudformation".data) := by decide
  have hpre : ("cloudformation".data) <+: ("cloudformation".data ++ rest) :=
    List.prefix_append _ _
  have hall : ("rm".data) <:+: ("cloudformation".data ++ rest) :=
    hinf.trans hpre.isInfix
  have hmap := hall.map Char.toLower
  rw [show List.map Char.toLower ("rm".data) = ("rm".data) from by decide] at hmap
  exact hmap

/-- Witness for C9 at a concrete cloudformation command. -/
theorem c9_witness : aws_is_safe_command ("cloudformation list-stacks".data) = false :=
  c9_aws_rm_substring_rejected.1 ("cloudformation list-stacks".data) (by decide)

/-- C4 counterexample: a GCP command that contains the token `delete` and the
read-only marker `--dry-run` from the gate's own exception table is still NOT
allowed, refuting the claim that such commands are allowed. -/
theorem c4_counterexample :
    ("delete".data <:+: pyLower ("compute instances delete foo --dry-run".data))
    ∧ ("--dry-run".data) ∈ gcpSafeDeleteMarkers
    ∧ evaluate .GCP ("compute instances delete foo --dry-run".data) ≠ .Allowed :=
  ⟨by decide, by decide, by decide⟩

/-- C4 amended: every GCP command containing `delete` is rejected regardless of
any read-only marker, because the denylist entry `"del"` (which carries no
exception) is checked earlier and necessarily matches whenever `delete`
occurs; the delete carve-out branch is unreachable. -/
theorem c4_all_gcp_delete_rejected :
    ∀ cmd : List Char, ("delete".data <:+: pyLower cmd) →
      gcp_is_safe_command cmd = false := by
  intro cmd h
  have hdel : ("del".data) <:+: ("delete".data) := by decide
  exact gcp_gate_pattern_reject cmd ("del".data) (by decide) (by decide) (hdel.trans h)

/-- Witness for the amended C4 at a concrete command containing `--help`. -/
theorem c4_witness : gcp_is_safe_command ("instances delete foo --help".data) = false :=
  c4_all_gcp_delete_rejected ("instances delete foo --help".data) (by decide)

/-! ### Bounded executor: output decoding and the timeout path

`_execute_aws_command` (awscli_claude.py lines 106-177) spawns the tokenized
command, waits with `asyncio.wait_for(process.communicate(), timeout=timeout)`,
then builds the response text with strict `stdout.decode('utf-8')` /
`stderr.decode('utf-8')`.  A `UnicodeDecodeError` is not handled specially:
it falls into the generic `except Exception` branch (lines 173-177) which
returns `"Error executing command: ..."`.  An `asyncio.TimeoutError`
(lines 168-172) returns `"Error: Command timed out after {timeout} seconds"`;
that handler contains no `process.kill()` or `process.terminate()` call, and
`asyncio.wait_for` only cancels the wait, so the child process keeps running.
-/

/-- Is `b` a UTF-8 continuation byte (0x80-0xBF)? -/
def utf8Cont (b : Nat) : Bool := 128 ≤ b && b ≤ 191

/-- Valid second byte of a three-byte sequence led by `b1` (excludes overlong
encodings for 0xE0 and surrogates for 0xED), as in Python's strict codec. -/
def utf8ThreeSecond (b1 b2 : Nat) : Bool :=
  if b1 = 224 then 160 ≤ b2 && b2 ≤ 191
  else if b1 = 237 then 128 ≤ b2 && b2 ≤ 159
  else utf8Cont b2

/-- Valid second byte of a four-byte sequence led by `b1` (excludes overlong
encodings for 0xF0 and code points above U+10FFFF for 0xF4). -/
def utf8FourSecond (b1 b2 : Nat) : Bool :=
  if b1 = 240 then 144 ≤ b2 && b2 ≤ 191
  else if b1 = 244 then 128 ≤ b2 && b2 ≤ 143
  else utf8Cont b2

/-- Python's strict `bytes.decode('utf-8')`: `some` code points on valid
input, `none` (a raised `UnicodeDecodeError`) otherwise. -/
def utf8Decode : List Nat → Option (List Nat)
  | [] => some []
  | b1 :: rest =>
    if b1 ≤ 127 then
      (utf8Decode rest).map (fun cs => b1 :: cs)
    else if 194 ≤ b1 && b1 ≤ 223 then
      match rest with
      | b2 :: rest2 =>
        if utf8Cont b2 then
          (utf8Decode rest2).map (fun cs => ((b1 - 192) * 64 + (b2 - 128)) :: cs)
        else none
      | [] => none
    else if 224 ≤ b1 && b1 ≤ 239 then
      match rest with
      | b2 :: b3 :: rest3 =>
        if utf8ThreeSecond b1 b2 && utf8Cont b3 then
          (utf8Decode rest3).map
            (fun cs => ((b1 - 224) * 4096 + (b2 - 128) * 64 + (b3 - 128)) :: cs)
        else none
      | _ => none
    else if 240 ≤ b1 && b1 ≤ 244 then
      match rest with
      | b2 :: b3 :: b4 :: rest4 =>
        if utf8FourSecond b1 b2 && utf8Cont b3 && utf8Cont b4 then
          (utf8Decode rest4).map (fun cs =>
            ((b1 - 240) * 262144 + (b2 - 128) * 4096 + (b3 - 128) * 64 + (b4 - 128)) :: cs)
        else none
      | _ => none
    else none

/-- The response produced by `_execute_aws_command` after `communicate()`
returned: a normal command result carrying the decoded output texts, the
timeout message, or the generic `except Exception` execution-error result. -/
inductive ExecResponse where
  | normal (returncode : Int) (outText errText : List Nat) : ExecResponse
  | timedOutMsg (text : String) : ExecResponse
  | execError : ExecResponse
deriving DecidableEq

/-- Response assembly of awscli_claude.py lines 153-166: decode stdout (only
when non-empty, per `if stdout:`) then stderr, strictly; a decode failure
raises and is caught by the generic handler at lines 173-177. -/
def buildResponse (returncode : Int) (stdout stderr : List Nat) : ExecResponse :=
  if stdout.isEmpty then
    if stderr.isEmpty then ExecResponse.normal returncode [] []
    else
      match utf8Decode stderr with
      | none => ExecResponse.execError
      | some e => ExecResponse.normal returncode [] e
  else
    match utf8Decode stdout with
    | none => ExecResponse.execError
    | some o =>
      if stderr.isEmpty then ExecResponse.normal returncode o []
      else
        match utf8Decode stderr with
        | none => ExecResponse.execError
        | some e => ExecResponse.normal returncode o e

/-- Abstract behavior of one spawned child process: its wall-clock running
time and what it would report on completion. -/
structure ProcBehavior where
  duration : Nat
  returncode : Int
  stdout : List Nat
  stderr : List Nat
deriving DecidableEq

/-- The exact text of the timeout reply at awscli_claude.py line 171. -/
def timeoutMessage (timeout : Nat) : String :=
  "Error: Command timed out after " ++ toString timeout ++ " seconds"

/-- Outcome of one executor invocation: the reply returned to the caller plus
whether the child process is still alive when that reply is returned. -/
structure ExecOutcome where
  response : ExecResponse
  childStillRunning : Bool
deriving DecidableEq

/-- The wait phase of `_execute_aws_command` (awscli_claude.py lines 141-172):
if the child finishes within the timeout, `communicate()` returns and the
response is assembled (the child has exited).  Otherwise `asyncio.wait_for`
cancels only the `communicate()` wait and raises `TimeoutError`; the handler
at lines 168-172 builds the timeout text and returns — it performs no
`process.kill()`/`process.terminate()`, so the child is still running. -/
def awaitWithTimeout (proc : ProcBehavior) (timeout : Nat) : ExecOutcome :=
  if proc.duration ≤ timeout then
    ExecOutcome.mk (buildResponse proc.returncode proc.stdout proc.stderr) false
  else
    ExecOutcome.mk (ExecResponse.timedOutMsg (timeoutMessage timeout)) true

/-- C3: the code violates the claim.  With a child that sleeps 10 seconds and
a 1-second timeout, the executor returns a timeout reply while the child is
still running (no termination call exists on that path), and the reported
message is `"Error: Command timed out after 1 seconds"`, not the claimed
`"command timed out after 1 seconds"`. -/
theorem c3_timeout_leaves_child_running :
    awaitWithTimeout (ProcBehavior.mk 10 0 [] []) 1
      = ExecOutcome.mk (ExecResponse.timedOutMsg (timeoutMessage 1)) true
    ∧ (awaitWithTimeout (ProcBehavior.mk 10 0 [] []) 1).childStillRunning = true
    ∧ timeoutMessage 1 ≠ "command timed out after 1 seconds" :=
  ⟨by decide, by decide, by decide⟩

/-- C7 counterexample: the byte 0xFF is not valid UTF-8; the executor then
returns the generic execution-error result, not a normal command result with
a replacement decoding, refuting the claim at this input. -/
theorem c7_counterexample :
    utf8Decode [255] = none
    ∧ buildResponse 0 [255] [] = ExecResponse.execError :=
  ⟨by decide, by decide⟩

/-- C7 amended: a decode failure does not crash the pipeline, but there is no
lossy fallback either: when the captured stdout is non-empty and not valid
UTF-8, the run is reported through the generic execution-error result. -/
theorem c7_decode_failure_exec_error (returncode : Int) (stdout stderr : List Nat)
    (hne : stdout.isEmpty = false) (hbad : utf8Decode stdout = none) :
    buildResponse returncode stdout stderr = ExecResponse.execError := by
  simp [buildResponse, hne, hbad]

/-- Witness for the amended C7 at the concrete invalid byte 0xFF. -/
theorem c7_witness :
    ([255] : List Nat).isEmpty = false ∧ utf8Decode [255] = none
    ∧ buildResponse 0 [255] [] = ExecResponse.execError :=
  ⟨rfl, by decide, c7_decode_failure_exec_error 0 [255] [] rfl (by decide)⟩

/-! ### Tokenization: Python's `shlex.split` in POSIX mode

All three MCP executors parse the full command with `shlex.split` and spawn
the result with `asyncio.create_subprocess_exec(*cmd_parts, ...)`.  The
state machine below is `shlex.read_token` with `posix=True`,
`whitespace_split=True` and comments disabled: whitespace separates tokens;
single quotes are fully literal; inside double quotes a backslash escapes
only `"` and `\` (and is kept literally otherwise); outside quotes a
backslash escapes the next character; an unterminated quote or a trailing
backslash raises `ValueError` (modelled as `none`). -/

inductive ShState where
  | out : ShState
  | word : List Char → ShState
  | squote : List Char → ShState
  | dquote : List Char → ShState
  | escWord : List Char → ShState
  | escDquote : List Char → ShState

def shlexAux : ShState → List Char → Option (List (List Char))
  | .out, [] => some []
  | .word cur, [] => some [cur]
  | .squote _, [] => none
  | .dquote _, [] => none
  | .escWord _, [] => none
  | .escDquote _, [] => none
  | .out, c :: cs =>
    if c.isWhitespace then shlexAux .out cs
    else if c = '\'' then shlexAux (.squote []) cs
    else if c = '"' then shlexAux (.dquote []) cs
    else if c = '\\' then shlexAux (.escWord []) cs
    else shlexAux (.word [c]) cs
  | .word cur, c :: cs =>
    if c.isWhitespace then (shlexAux .out cs).map (fun ts => cur :: ts)
    else if c = '\'' then shlexAux (.squote cur) cs
    else if c = '"' then shlexAux (.dquote cur) cs
    else if c = '\\' then shlexAux (.escWord cur) cs
    else shlexAux (.word (cur ++ [c])) cs
  | .squote cur, c :: cs =>
    if c = '\'' then shlexAux (.word cur) cs
    else shlexAux (.squote (cur ++ [c])) cs
  | .dquote cur, c :: cs =>
    if c = '"' then shlexAux (.word cur) cs
    else if c = '\\' then shlexAux (.escDquote cur) cs
    else shlexAux (.dquote (cur ++ [c])) cs
  | .escWord cur, c :: cs => shlexAux (.word (cur ++ [c])) cs
  | .escDquote cur, c :: cs =>
    if c = '"' ∨ c = '\\' then shlexAux (.dquote (cur ++ [c])) cs
    else shlexAux (.dquote (cur ++ ['\\', c])) cs

/-- `shlex.split(full_command)`: `some argv` on success, `none` when shlex
raises `ValueError` (the `except ValueError` branch returns a parse error and
nothing is spawned). -/
def shlexSplit (l : List Char) : Option (List (List Char)) := shlexAux .out l

example : shlexSplit ("aws s3 ls".data) = some ["aws".data, "s3".data, "ls".data] := by decide

example : shlexSplit ("aws s3 cp 'my file.txt' dst".data)
    = some ["aws".data, "s3".data, "cp".data, "my file.txt".data, "dst".data] := by decide

example : shlexSplit ("aws 'unterminated".data) = none := by decide

/-! ### Process spawning -/

/-- How a subprocess is launched: directly from an argv vector
(`asyncio.create_subprocess_exec(*cmd_parts, ...)`) or by handing a command
string to a shell (`subprocess.check_output(command, shell=True)`). -/
inductive Spawn where
  | argvVector (argv : List (List Char)) : Spawn
  | shellString (cmd : List Char) : Spawn
deriving DecidableEq

/-- Whether the launch goes through a shell interpreter. -/
def Spawn.usesShell : Spawn → Bool
  | .argvVector _ => false
  | .shellString _ => true

/-- Spawn performed by the MCP executors (awscli_claude.py lines 128-145,
azurecli_claude.py lines 138-155, gcpcli_claude.py lines 255-272): the full
command is shlex-tokenized and the parts are passed as the argv vector;
when `shlex.split` raises, no process is spawned at all. -/
def mcpSpawn (provider : ProviderKind) (command : List Char) : Option Spawn :=
  (shlexSplit (fullCommand provider command)).map Spawn.argvVector

/-- Spawn performed by the `run_aws` HTTP endpoint (awscli_mcp.py lines
14-24): the raw request string is executed with `shell=True`. -/
def runAwsSpawn (command : List Char) : Spawn := Spawn.shellString command

/-- C1 counterexample: in the HTTP-facing variant, a command that reaches
execution is handed to a shell as an uninterpreted string — a subprocess IS
spawned with shell interpretation, refuting the repository-wide claim. -/
theorem c1_counterexample :
    runAwsSpawn ("aws iam list-users".data)
      = Spawn.shellString ("aws iam list-users".data)
    ∧ Spawn.usesShell (runAwsSpawn ("aws iam list-users".data)) = true :=
  ⟨rfl, rfl⟩

/-! ### Structural lemmas about the tokenizer -/

lemma shlexAux_word_ws (cur : List Char) (c : Char) (cs : List Char)
    (h : c.isWhitespace = true) :
    shlexAux (.word cur) (c :: cs) = (shlexAux .out cs).map (fun ts => cur :: ts) := by
  simp [shlexAux, h]

lemma shlexAux_word_ordinary (cur : List Char) (c : Char) (cs : List Char)
    (h1 : c.isWhitespace = false) (h2 : c ≠ '\'') (h3 : c ≠ '"') (h4 : c ≠ '\\') :
    shlexAux (.word cur) (c :: cs) = shlexAux (.word (cur ++ [c])) cs := by
  simp [shlexAux, h1, h2, h3, h4]

lemma shlexAux_out_ordinary (c : Char) (cs : List Char)
    (h1 : c.isWhitespace = false) (h2 : c ≠ '\'') (h3 : c ≠ '"') (h4 : c ≠ '\\') :
    shlexAux .out (c :: cs) = shlexAux (.word [c]) cs := by
  simp [shlexAux, h1, h2, h3, h4]

lemma shlexAux_out_squote (cs : List Char) :
    shlexAux .out ('\'' :: cs) = shlexAux (.squote []) cs := rfl

lemma shlexAux_squote_close (cur cs : List Char) :
    shlexAux (.squote cur) ('\'' :: cs) = shlexAux (.word cur) cs := rfl

lemma shlexAux_squote_char (cur : List Char) (c : Char) (cs : List Char) (h : c ≠ '\'') :
    shlexAux (.squote cur) (c :: cs) = shlexAux (.squote (cur ++ [c])) cs := by
  simp [shlexAux, h]

lemma shlexAux_word_append :
    ∀ (t : List Char), (∀ c ∈ t, c.isWhitespace = false ∧ c ≠ '\'' ∧ c ≠ '"' ∧ c ≠ '\\') →
    ∀ (cur rest : List Char),
      shlexAux (.word cur) (t ++ rest) = shlexAux (.word (cur ++ t)) rest := by
  intro t
  induction t with
  | nil => intro _ cur rest; simp
  | cons c t ih =>
    intro h cur rest
    obtain ⟨h1, h2, h3, h4⟩ := h c (List.mem_cons_self c t)
    have ht := fun d hd => h d (List.mem_cons_of_mem c hd)
    rw [List.cons_append, shlexAux_word_ordinary cur c (t ++ rest) h1 h2 h3 h4,
        ih ht (cur ++ [c]) rest, List.append_assoc]
    rfl

lemma shlexAux_squote_append :
    ∀ (a : List Char), '\'' ∉ a →
    ∀ (cur rest : List Char),
      shlexAux (.squote cur) (a ++ '\'' :: rest) = shlexAux (.word (cur ++ a)) rest := by
  intro a
  induction a with
  | nil =>
    intro _ cur rest
    rw [List.nil_append, shlexAux_squote_close, List.append_nil]
  | cons c a ih =>
    intro h cur rest
    have hc : c ≠ '\'' := by
      intro hceq
      subst hceq
      exact h (List.mem_cons_self _ _)
    have ha : '\'' ∉ a := fun hm => h (List.mem_cons_of_mem c hm)
    rw [List.cons_append, shlexAux_squote_char cur c _ hc, ih ha (cur ++ [c]) rest,
        List.append_assoc]
    rfl

/-- A rendered command-line argument: either written bare (`plain`) or
wrapped in single quotes (`squoted`), the quoting form that protects internal
spaces from word splitting. -/
inductive Arg where
  | plain : List Char → Arg
  | squoted : List Char → Arg
deriving DecidableEq

/-- The characters the argument occupies inside the raw command string. -/
def Arg.render : Arg → List Char
  | .plain t => t
  | .squoted t => '\'' :: (t ++ ['\''])

/-- The intended value of the argument (the token the caller means). -/
def Arg.val : Arg → List Char
  | .plain t => t
  | .squoted t => t

/-- Well-formedness: a bare argument is non-empty and free of whitespace,
quotes and backslashes; a single-quoted argument is "properly quoted", i.e.
its content has no single quote. -/
def argOK : Arg → Bool
  | .plain t => !t.isEmpty && t.all (fun c =>
      decide (c.isWhitespace = false ∧ c ≠ '\'' ∧ c ≠ '"' ∧ c ≠ '\\'))
  | .squoted t => t.all (fun c => decide (c ≠ '\''))

lemma argOK_plain {t : List Char} (h : argOK (.plain t) = true) :
    t ≠ [] ∧ ∀ c ∈ t, c.isWhitespace = false ∧ c ≠ '\'' ∧ c ≠ '"' ∧ c ≠ '\\' := by
  simp only [argOK, Bool.and_eq_true, List.all_eq_true, decide_eq_true_eq] at h
  obtain ⟨h1, h2⟩ := h
  refine ⟨?_, h2⟩
  intro hnil
  subst hnil
  simp at h1

lemma argOK_squoted {t : List Char} (h : argOK (.squoted t) = true) : '\'' ∉ t := by
  simp only [argOK, List.all_eq_true, decide_eq_true_eq] at h
  intro hm
  exact (h '\'' hm) rfl

lemma shlexAux_out_arg (a : Arg) (ha : argOK a = true) (rest : List Char) :
    shlexAux .out (a.render ++ rest) = shlexAux (.word a.val) rest := by
  cases a with
  | plain t =>
    obtain ⟨hne, hall⟩ := argOK_plain ha
    cases t with
    | nil => exact absurd rfl hne
    | cons c t =>
      obtain ⟨h1, h2, h3, h4⟩ := hall c (List.mem_cons_self c t)
      have ht := fun d hd => hall d (List.mem_cons_of_mem c hd)
      show shlexAux .out ((c :: t) ++ rest) = shlexAux (.word (c :: t)) rest
      rw [List.cons_append, shlexAux_out_ordinary c (t ++ rest) h1 h2 h3 h4,
          shlexAux_word_append t ht [c] rest]
      rfl
  | squoted s =>
    have hs := argOK_squoted ha
    show shlexAux .out (('\'' :: (s ++ ['\''])) ++ rest) = shlexAux (.word s) rest
    rw [List.cons_append, shlexAux_out_squote, List.append_assoc,
        List.singleton_append, shlexAux_squote_append s hs [] rest, List.nil_append]

/-- Render a sequence of arguments as the raw command string, separated by
single spaces. -/
def renderCmd : List Arg → List Char
  | [] => []
  | [a] => a.render
  | a :: b :: rest => a.render ++ ' ' :: renderCmd (b :: rest)

lemma shlexSplit_renderCmd :
    ∀ (args : List Arg), (∀ a ∈ args, argOK a = true) → args ≠ [] →
      shlexSplit (renderCmd args) = some (args.map Arg.val) := by
  intro args
  induction args with
  | nil => intro _ h; exact absurd rfl h
  | cons a rest ih =>
    intro hwf _
    have ha := hwf a (List.mem_cons_self a rest)
    cases rest with
    | nil =>
      show shlexAux .out (Arg.render a) = some [a.val]
      have h := shlexAux_out_arg a ha []
      rw [List.append_nil] at h
      rw [h]
      rfl
    | cons b rest2 =>
      have hwf2 : ∀ x ∈ b :: rest2, argOK x = true :=
        fun x hx => hwf x (List.mem_cons_of_mem a hx)
      have hne2 : (b :: rest2 : List Arg) ≠ [] := by simp
      show shlexAux .out (a.render ++ ' ' :: renderCmd (b :: rest2))
        = some ((a :: b :: rest2).map Arg.val)
      rw [shlexAux_out_arg a ha (' ' :: renderCmd (b :: rest2)),
          shlexAux_word_ws (Arg.val a) ' ' (renderCmd (b :: rest2)) (by decide)]
      have ihh := ih hwf2 hne2
      rw [show shlexSplit (renderCmd (b :: rest2))
            = shlexAux .out (renderCmd (b :: rest2)) from rfl] at ihh
      rw [ihh]
      rfl

lemma shlexSplit_bin_prefix (bin : List Char) (hb : argOK (Arg.plain bin) = true)
    (cmd : List Char) :
    shlexSplit (bin ++ ' ' :: cmd) = (shlexSplit cmd).map (fun ts => bin :: ts) := by
  show shlexAux .out (bin ++ ' ' :: cmd) = (shlexAux .out cmd).map (fun ts => bin :: ts)
  have h := shlexAux_out_arg (Arg.plain bin) hb (' ' :: cmd)
  rw [show (Arg.plain bin).render = bin from rfl,
      show (Arg.plain bin).val = bin from rfl] at h
  rw [h, shlexAux_word_ws bin ' ' cmd (by decide)]

lemma shlexSplit_fullCommand (p : ProviderKind) (cmd : List Char) :
    shlexSplit (fullCommand p cmd)
      = (shlexSplit cmd).map (fun ts => providerBinary p :: ts) := by
  cases p <;> exact shlexSplit_bin_prefix _ (by decide) cmd

/-- C1 amended: in the MCP executors, every command that reaches execution is
spawned from the shlex-tokenized argv vector with the provider binary as its
first element, and never through a shell; the repository-wide version of the
claim fails only for the HTTP-facing `run_aws` endpoint (see the
counterexample). -/
theorem c1_mcp_spawns_argv_vector
    (p : ProviderKind) (command : List Char) (parts : List (List Char))
    (h : shlexSplit (fullCommand p command) = some parts) :
    mcpSpawn p command = some (Spawn.argvVector parts)
    ∧ Spawn.usesShell (Spawn.argvVector parts) = false
    ∧ parts.head? = some (providerBinary p) := by
  refine ⟨?_, rfl, ?_⟩
  · show (shlexSplit (fullCommand p command)).map Spawn.argvVector
      = some (Spawn.argvVector parts)
    rw [h]
    rfl
  · rw [shlexSplit_fullCommand] at h
    cases hc : shlexSplit command with
    | none => rw [hc] at h; cases h
    | some ts =>
      rw [hc] at h
      have : providerBinary p :: ts = parts := Option.some.inj h
      rw [← this]
      rfl

/-- Witness for the amended C1 at a concrete AWS command. -/
theorem c1_witness :
    mcpSpawn .AWS ("iam list-users".data)
      = some (Spawn.argvVector ["aws".data, "iam".data, "list-users".data])
    ∧ Spawn.usesShell
        (Spawn.argvVector ["aws".data, "iam".data, "list-users".data]) = false
    ∧ (["aws".data, "iam".data, "list-users".data] : List (List Char)).head?
        = some (providerBinary .AWS) :=
  c1_mcp_spawns_argv_vector .AWS ("iam list-users".data)
    ["aws".data, "iam".data, "list-users".data] (by decide)

/-- C10: tokenization round-trip.  For every well-formed argument sequence
that passes the AWS gate and contains a properly single-quoted argument with
an internal space, tokenizing the full command (provider binary prepended)
yields exactly the intended argv — in particular the quoted argument survives
as a single token of the argv list, without any shell interpreter involved. -/
theorem c10_quoted_arg_single_token
    (args : List Arg) (arg : List Char)
    (hwf : ∀ a ∈ args, argOK a = true)
    (hmem : Arg.squoted arg ∈ args)
    (hspace : ' ' ∈ arg)
    (hgate : evaluate .AWS (renderCmd args) = .Allowed) :
    shlexSplit (fullCommand .AWS (renderCmd args))
      = some ("aws".data :: args.map Arg.val)
    ∧ arg ∈ args.map Arg.val := by
  have hne : args ≠ [] := by
    intro hnil
    rw [hnil] at hmem
    cases hmem
  constructor
  · rw [shlexSplit_fullCommand, shlexSplit_renderCmd args hwf hne]
    rfl
  · exact List.mem_map_of_mem Arg.val hmem

/-- Witness for C10: `s3 cp 'my file.txt'` passes the AWS gate and the quoted
argument `my file.txt` comes back as one argv token. -/
theorem c10_witness :
    shlexSplit (fullCommand .AWS
        (renderCmd [Arg.plain ("s3".data), Arg.plain ("cp".data),
          Arg.squoted ("my file.txt".data)]))
      = some ("aws".data :: [Arg.plain ("s3".data), Arg.plain ("cp".data),
          Arg.squoted ("my file.txt".data)].map Arg.val)
    ∧ ("my file.txt".data)
        ∈ [Arg.plain ("s3".data), Arg.plain ("cp".data),
            Arg.squoted ("my file.txt".data)].map Arg.val :=
  c10_quoted_arg_single_token
    [Arg.plain ("s3".data), Arg.plain ("cp".data), Arg.squoted ("my file.txt".data)]
    ("my file.txt".data) (by decide) (by decide) (by decide) (by decide)

end CloudSecBot
